import Mathlib

/-!
Shallow embedding of the Streamlit chat application in `src/app.py`
(Chatbot-LLAMA).

The application keeps an in-memory turn log `st.session_state.messages`
(a list of `{"role": ..., "content": ...}` dictionaries), accepts one
line of input through `st.chat_input`, invokes the model gateway
`llm.invoke(prompt)` once with the raw prompt, and renders the response
character by character into a display placeholder, appending the cursor
glyph "▌" after each increment and finally writing the accumulated
response without the glyph.  On success the accumulator is appended as
an assistant turn; any exception raised inside the `try` block is caught
and surfaced as a single `st.error` annotation.

Modelling choices:
  * Python strings are Lean `String`; iterating a Python string yields
    its characters, so the streaming loop recurses over `String.data`.
  * The model gateway (`load_llm` + `llm.invoke`) is a parameter
    `invoke : String → Except String String`: `Except.error e` models an
    exception with message `str(e)` raised during model loading or
    invocation.
  * Each `message_placeholder.markdown` call is a parameter
    `write : String → Except String Unit`, so an exception raised by any
    step of the streaming render is representable.  Successful calls are
    recorded in order in the `writes` field of the result.
  * `st.error` calls are recorded in `errors`; the exception caught by
    the `except` block (if any) is recorded in `caught`.  The handler is
    a total Lean function, mirroring the fact that the `except` clause
    prevents a crash of the process.
  * `time.sleep(0.02)` only suspends the thread and has no effect on
    state or output; it is not modelled.
  * `process_file` writes the upload to a fresh temporary file
    (`tempfile.NamedTemporaryFile(delete=False, suffix=...)`).  The
    filesystem is modelled as a list of path/content pairs plus a
    counter generating fresh names; `delete=False` is reflected by the
    created file remaining in the filesystem state returned by
    `process_file`.
-/

namespace ChatApp

/-- Role tag of a chat turn: the app only ever stores "user" and
"assistant". -/
inductive Role where
  | user
  | assistant
  deriving DecidableEq

/-- One entry of `st.session_state.messages`:
a dictionary with the keys "role" and "content" (app.py lines 71, 100). -/
structure ChatTurn where
  role : Role
  content : String
  deriving DecidableEq

/-- Initial value of `st.session_state.messages` (app.py lines 20-21):
the empty list. -/
def initialMessages : List ChatTurn := []

/-- The cursor glyph appended to each intermediate placeholder write
(app.py line 93). -/
def cursorMarker : String := "▌"

/-- Text passed to `st.error` when an exception with message `e` is
caught (app.py line 103). -/
def stErrorText (e : String) : String := "An error occurred: " ++ e

/-- The typing-effect loop of app.py lines 90-94:
for each character, extend the accumulator, write
`accumulator + cursorMarker` to the placeholder, and continue.  Returns
the successful placeholder writes in order, the final accumulator value,
and the message of the exception raised by a write, if any (a failing
write performs no visible write and aborts the loop). -/
def streamLoop (write : String → Except String Unit) :
    List Char → String → List String × String × Option String
  | [], acc => ([], acc, none)
  | c :: cs, acc =>
    let acc' := acc ++ String.singleton c
    let w := acc' ++ cursorMarker
    match write w with
    | Except.ok _ =>
      let r := streamLoop write cs acc'
      (w :: r.1, r.2.1, r.2.2)
    | Except.error e => ([], acc', some e)

/-- Observable outcome of one submission: the new value of
`st.session_state.messages`, the successful placeholder writes, the
`st.error` annotations displayed, the exception caught by the `except`
block (if any), and the arguments of the gateway invocations performed. -/
structure RenderResult where
  messages : List ChatTurn
  writes : List String
  errors : List String
  caught : Option String
  calls : List String
  deriving DecidableEq

/-- Body of the chat handler for a forwarded prompt (app.py lines
71-103): append the user turn, invoke the gateway with the raw prompt,
stream the response with the typing effect, write the final accumulator
without the cursor, append the assistant turn; any exception inside the
`try` block yields exactly one `st.error` annotation and no assistant
turn. -/
def handleChat (invoke : String → Except String String)
    (write : String → Except String Unit)
    (msgs : List ChatTurn) (prompt : String) : RenderResult :=
  let msgs1 := msgs ++ [⟨Role.user, prompt⟩]
  match invoke prompt with
  | Except.error e => ⟨msgs1, [], [stErrorText e], some e, [prompt]⟩
  | Except.ok response =>
    let r := streamLoop write response.data ""
    match r.2.2 with
    | some e => ⟨msgs1, r.1, [stErrorText e], some e, [prompt]⟩
    | none =>
      match write r.2.1 with
      | Except.error e => ⟨msgs1, r.1, [stErrorText e], some e, [prompt]⟩
      | Except.ok _ =>
        ⟨msgs1 ++ [⟨Role.assistant, r.2.1⟩], r.1 ++ [r.2.1], [], none, [prompt]⟩

/-- The chat-input guard of app.py line 69:
`if prompt := st.chat_input(...)`.  `st.chat_input` returns `None` when
nothing was submitted, else the submitted string; the walrus `if` tests
Python truthiness, so exactly `None` and the empty string are skipped. -/
def handleSubmission (invoke : String → Except String String)
    (write : String → Except String Unit)
    (msgs : List ChatTurn) (input : Option String) : RenderResult :=
  match input with
  | none => ⟨msgs, [], [], none, []⟩
  | some p => if p = "" then ⟨msgs, [], [], none, []⟩ else handleChat invoke write msgs p

/-- The Clear Conversation button handler (app.py lines 50-51):
`st.session_state.messages = []`. -/
def clearConversation (_msgs : List ChatTurn) : List ChatTurn := []

/-- Sequencing of several submissions: each submission starts from the
message list produced by the previous one (Streamlit reruns the script;
`st.session_state.messages` persists across reruns). -/
def runAll (invoke : String → Except String String)
    (write : String → Except String Unit) :
    List ChatTurn → List String → List ChatTurn
  | msgs, [] => msgs
  | msgs, p :: ps =>
    runAll invoke write (handleSubmission invoke write msgs (some p)).messages ps

/-- The two operations that mutate `st.session_state.messages`:
a chat-input submission (app.py lines 69-103) and the clear button
(app.py lines 50-51). -/
inductive Op where
  | submit : Option String → Op
  | clear : Op
  deriving DecidableEq

/-- Effect of one operation on the message list. -/
def applyOp (invoke : String → Except String String)
    (write : String → Except String Unit)
    (msgs : List ChatTurn) : Op → List ChatTurn
  | Op.submit input => (handleSubmission invoke write msgs input).messages
  | Op.clear => clearConversation msgs

/-- Effect of a sequence of operations on the message list. -/
def runOps (invoke : String → Except String String)
    (write : String → Except String Unit) :
    List ChatTurn → List Op → List ChatTurn
  | msgs, [] => msgs
  | msgs, op :: ops => runOps invoke write (applyOp invoke write msgs op) ops

/-- A Streamlit `UploadedFile` as used by `process_file` (app.py lines
28-35): only its `name` and the bytes returned by `getvalue()` are
read. -/
structure UploadedFile where
  name : String
  value : List UInt8
  deriving DecidableEq

/-- The temporary-file store backing `tempfile.NamedTemporaryFile`:
the files present, and a counter from which fresh names are drawn. -/
structure TempFS where
  files : List (String × List UInt8)
  counter : Nat
  deriving DecidableEq

/-- Index of the last occurrence of `c` in `cs`, like Python
`str.rfind` (with `none` for Python's `-1`). -/
def rfindIdx (cs : List Char) (c : Char) : Option Nat :=
  match cs.reverse.findIdx? (fun x => x == c) with
  | none => none
  | some j => some (cs.length - 1 - j)

/-- Final path component, like `pathlib.PurePath(p).name` for paths
made of plain components (empty and trailing-slash components are
dropped, as pathlib does). -/
def pathlibName (p : String) : String :=
  match ((p.splitOn "/").filter (fun s => s ≠ "")).getLast? with
  | some s => s
  | none => ""

/-- Extension of a path, like `pathlib.PurePath(p).suffix` (CPython:
`i = name.rfind('.'); return name[i:] if 0 < i < len(name) - 1 else ''`
on the final component). -/
def pathSuffix (p : String) : String :=
  let nm := (pathlibName p).data
  match rfindIdx nm '.' with
  | none => ""
  | some i =>
    if 0 < i ∧ i < nm.length - 1 then String.mk (nm.drop i) else ""

/-- Name of the next file created by
`tempfile.NamedTemporaryFile(delete=False, suffix=suffix)`: a fresh
path in the temporary directory ending in `suffix`. -/
def freshTempName (fs : TempFS) (suffix : String) : String :=
  "/tmp/tmp" ++ toString fs.counter ++ suffix

/-- The `process_file` function of app.py lines 28-35: for `None` it
returns `None`; otherwise it creates a temporary file whose name keeps
the upload's extension (`suffix=Path(uploaded_file.name).suffix`),
writes `uploaded_file.getvalue()` to it, and returns `tmp_file.name`.
`delete=False` means the file persists after the `with` block: it is
still present in the returned filesystem state. -/
def process_file (fs : TempFS) (uploaded : Option UploadedFile) :
    TempFS × Option String :=
  match uploaded with
  | none => (fs, none)
  | some f =>
    let path := freshTempName fs (pathSuffix f.name)
    (⟨fs.files ++ [(path, f.value)], fs.counter + 1⟩, some path)

/-- A placeholder write that always succeeds (the normal Streamlit
behaviour of `st.empty().markdown`). -/
def okWrite : String → Except String Unit := fun _ => Except.ok ()

/-! Helper lemmas about `String` concatenation and the streaming loop. -/

theorem str_append_empty (s : String) : s ++ "" = s := by
  cases s
  simp

theorem str_empty_append (s : String) : "" ++ s = s := rfl

theorem str_append_assoc (a b c : String) : a ++ b ++ c = a ++ (b ++ c) := by
  apply String.ext
  simp [List.append_assoc]

theorem append_singleton_mk (acc : String) (c : Char) (l : List Char) :
    acc ++ String.singleton c ++ String.mk l = acc ++ String.mk (c :: l) := by
  rw [str_append_assoc]
  rfl

/-- When the streaming loop finishes without an exception, the final
accumulator is the initial accumulator followed by all streamed
characters, whatever the individual writes did. -/
theorem streamLoop_final_acc (write : String → Except String Unit) :
    ∀ (cs : List Char) (acc : String) (ws : List String) (accF : String),
      streamLoop write cs acc = (ws, accF, none) →
      accF = acc ++ String.mk cs := by
  intro cs
  induction cs with
  | nil =>
    intro acc ws accF h
    simp only [streamLoop, Prod.mk.injEq] at h
    rw [← h.2.1]
    exact (str_append_empty acc).symm
  | cons c cs ih =>
    intro acc ws accF h
    simp only [streamLoop] at h
    split at h
    · simp only [Prod.mk.injEq] at h
      obtain ⟨-, hacc, herr⟩ := h
      have hr : streamLoop write cs (acc ++ String.singleton c) =
          ((streamLoop write cs (acc ++ String.singleton c)).1,
            (streamLoop write cs (acc ++ String.singleton c)).2.1, none) := by
        rw [← herr]
      have := ih (acc ++ String.singleton c)
        (streamLoop write cs (acc ++ String.singleton c)).1
        (streamLoop write cs (acc ++ String.singleton c)).2.1 hr
      rw [← hacc, this, append_singleton_mk]
    · simp only [Prod.mk.injEq] at h
      exact absurd h.2.2 (by simp)

/-- With writes that always succeed, the streaming loop emits one write
per character, each equal to the accumulated prefix followed by the
cursor marker, and returns the whole input as final accumulator. -/
theorem streamLoop_okWrite_eq :
    ∀ (cs : List Char) (acc : String),
      streamLoop okWrite cs acc =
        ((List.range cs.length).map
            (fun i => acc ++ String.mk (cs.take (i + 1)) ++ cursorMarker),
          acc ++ String.mk cs, none) := by
  intro cs
  induction cs with
  | nil =>
    intro acc
    simp only [streamLoop, List.length_nil, List.range_zero, List.map_nil,
      Prod.mk.injEq, true_and]
    exact ⟨(str_append_empty acc).symm, trivial⟩
  | cons c cs ih =>
    intro acc
    have hmap : (List.range (c :: cs).length).map
        (fun i => acc ++ String.mk ((c :: cs).take (i + 1)) ++ cursorMarker) =
        (acc ++ String.singleton c ++ cursorMarker) ::
          (List.range cs.length).map
            (fun i => acc ++ String.singleton c ++ String.mk (cs.take (i + 1)) ++
              cursorMarker) := by
      rw [List.length_cons, List.range_succ_eq_map, List.map_cons, List.map_map]
      congr 1
      apply List.map_congr_left
      intro i _
      show acc ++ String.mk ((c :: cs).take (Nat.succ i + 1)) ++ cursorMarker = _
      rw [List.take_succ_cons, ← append_singleton_mk]
    have hstep : streamLoop okWrite (c :: cs) acc =
        ((acc ++ String.singleton c ++ cursorMarker) ::
            (streamLoop okWrite cs (acc ++ String.singleton c)).1,
          (streamLoop okWrite cs (acc ++ String.singleton c)).2.1,
          (streamLoop okWrite cs (acc ++ String.singleton c)).2.2) := rfl
    rw [hstep, ih, hmap]
    simp only [Prod.mk.injEq]
    exact ⟨trivial, append_singleton_mk acc c cs, trivial⟩

/-! Claim theorems. -/

/-- C1, counterexample: the whitespace-only submission " " is truthy in
Python, so the walrus guard of app.py line 69 lets it through: with an
echoing gateway the conversation state gains two turns and the gateway
is invoked once, refuting the claim that every whitespace-only
submission causes zero state mutations and zero gateway invocations. -/
theorem whitespace_submission_not_noop :
    ¬ ((handleSubmission (fun q => Except.ok q) okWrite [] (some " ")).messages = [] ∧
      (handleSubmission (fun q => Except.ok q) okWrite [] (some " ")).calls = []) := by
  decide

/-- C1 (amended): a submission that is absent or the empty string is a
no-op: the conversation state is unchanged, no placeholder write, no
error, and zero gateway invocations.  (Whitespace-only non-empty
submissions, by contrast, are forwarded like any other prompt.) -/
theorem empty_submission_is_noop
    (invoke : String → Except String String) (write : String → Except String Unit)
    (msgs : List ChatTurn) :
    handleSubmission invoke write msgs none = ⟨msgs, [], [], none, []⟩ ∧
    handleSubmission invoke write msgs (some "") = ⟨msgs, [], [], none, []⟩ := by
  refine ⟨rfl, ?_⟩
  simp [handleSubmission]

/-- C2: if the gateway invocation or any step of the streaming render
raises an exception (the handler catches it: `caught = some e`), then no
assistant turn is appended — the conversation state is exactly the prior
log plus the already-committed user turn — and exactly one error
annotation is displayed, containing the failure description.  The
handler is a total function, so the process never crashes. -/
theorem render_failure_no_commit_single_error
    (invoke : String → Except String String) (write : String → Except String Unit)
    (msgs : List ChatTurn) (prompt e : String)
    (h : (handleChat invoke write msgs prompt).caught = some e) :
    (handleChat invoke write msgs prompt).messages = msgs ++ [⟨Role.user, prompt⟩] ∧
    (handleChat invoke write msgs prompt).errors = [stErrorText e] := by
  cases hi : invoke prompt with
  | error e2 =>
    simp only [handleChat, hi, Option.some.injEq] at h ⊢
    subst h
    exact ⟨trivial, rfl⟩
  | ok s =>
    simp only [handleChat, hi] at h ⊢
    cases herr : (streamLoop write s.data "").2.2 with
    | some e2 =>
      simp only [herr, Option.some.injEq] at h ⊢
      subst h
      exact ⟨trivial, rfl⟩
    | none =>
      simp only [herr] at h ⊢
      cases hw : write (streamLoop write s.data "").2.1 with
      | error e2 =>
        simp only [hw, Option.some.injEq] at h ⊢
        subst h
        exact ⟨trivial, rfl⟩
      | ok u =>
        simp only [hw] at h
        exact Option.noConfusion h

/-- Witness for C2: a gateway raising "boom" leaves only the user turn
and displays the single annotation built from "boom". -/
theorem render_failure_witness :
    (handleChat (fun _ => Except.error "boom") okWrite [] "hi").messages =
        [] ++ [⟨Role.user, "hi"⟩] ∧
    (handleChat (fun _ => Except.error "boom") okWrite [] "hi").errors =
        [stErrorText "boom"] :=
  render_failure_no_commit_single_error (fun _ => Except.error "boom") okWrite [] "hi"
    "boom" rfl

/-- C5: when a submission completes successfully (nothing was caught),
the turn appended to the conversation state has role assistant and its
content is the accumulator, i.e. the concatenation of all increments of
the gateway response — the full response string. -/
theorem assistant_turn_is_full_response
    (invoke : String → Except String String) (write : String → Except String Unit)
    (msgs : List ChatTurn) (prompt s : String)
    (hok : invoke prompt = Except.ok s)
    (hdone : (handleChat invoke write msgs prompt).caught = none) :
    (handleChat invoke write msgs prompt).messages =
      msgs ++ [⟨Role.user, prompt⟩, ⟨Role.assistant, s⟩] := by
  simp only [handleChat, hok] at hdone ⊢
  cases herr : (streamLoop write s.data "").2.2 with
  | some e2 =>
    simp only [herr] at hdone
    exact Option.noConfusion hdone
  | none =>
    simp only [herr] at hdone ⊢
    cases hw : write (streamLoop write s.data "").2.1 with
    | error e2 =>
      simp only [hw] at hdone
      exact Option.noConfusion hdone
    | ok u =>
      simp only [hw]
      have hr : streamLoop write s.data "" =
          ((streamLoop write s.data "").1,
            (streamLoop write s.data "").2.1, none) := by
        rw [← herr]
      have hacc := streamLoop_final_acc write s.data ""
        (streamLoop write s.data "").1 (streamLoop write s.data "").2.1 hr
      rw [str_empty_append] at hacc
      rw [hacc]
      simp [List.append_assoc]

/-- Witness for C5: the echoed two-character response "ab" is committed
as the assistant turn's content. -/
theorem assistant_turn_witness :
    (handleChat (fun _ => Except.ok "ab") okWrite [] "hi").messages =
      [] ++ [⟨Role.user, "hi"⟩, ⟨Role.assistant, "ab"⟩] :=
  assistant_turn_is_full_response (fun _ => Except.ok "ab") okWrite [] "hi" "ab" rfl rfl

/-- C6: a non-empty submission invokes the gateway exactly once, with
exactly the raw prompt string as argument — no system prompt, no prior
turns from the conversation state. -/
theorem gateway_receives_raw_prompt
    (invoke : String → Except String String) (write : String → Except String Unit)
    (msgs : List ChatTurn) (p : String) (h : p ≠ "") :
    (handleSubmission invoke write msgs (some p)).calls = [p] := by
  simp only [handleSubmission, if_neg h]
  cases hi : invoke p with
  | error e => simp [handleChat, hi]
  | ok s =>
    simp only [handleChat, hi]
    cases herr : (streamLoop write s.data "").2.2 with
    | some e => simp [herr]
    | none =>
      simp only [herr]
      cases hw : write (streamLoop write s.data "").2.1 with
      | error e => simp [hw]
      | ok u => simp [hw]

/-- Witness for C6: submitting "hello" calls the gateway with exactly
["hello"]. -/
theorem raw_prompt_witness :
    (handleSubmission (fun q => Except.ok q) okWrite [] (some "hello")).calls =
      ["hello"] :=
  gateway_receives_raw_prompt (fun q => Except.ok q) okWrite [] "hello" (by decide)

/-- C7: clearing the conversation yields the empty turn sequence, and
clearing twice is the same as clearing once (idempotence). -/
theorem clear_yields_empty_and_idempotent (msgs : List ChatTurn) :
    clearConversation msgs = [] ∧
    clearConversation (clearConversation msgs) = clearConversation msgs :=
  ⟨rfl, rfl⟩

/-- C9: a successful gateway response that is the empty string is
committed, not suppressed: the streaming loop performs no intermediate
write, the renderer performs exactly one placeholder write (the empty
string, no cursor marker), and an assistant turn with empty content is
appended. -/
theorem empty_response_committed (msgs : List ChatTurn) (p : String) (h : p ≠ "") :
    handleSubmission (fun _ => Except.ok "") okWrite msgs (some p) =
      ⟨msgs ++ [⟨Role.user, p⟩, ⟨Role.assistant, ""⟩], [""], [], none, [p]⟩ := by
  simp only [handleSubmission, if_neg h]
  have hsl : streamLoop okWrite ("" : String).data "" = ([], "", none) := rfl
  simp only [handleChat, hsl, okWrite]
  simp [List.append_assoc]

/-- Witness for C9: the empty response to "hi" yields the single write
"" and an empty assistant turn. -/
theorem empty_response_witness :
    handleSubmission (fun _ => Except.ok "") okWrite [] (some "hi") =
      ⟨[] ++ [⟨Role.user, "hi"⟩, ⟨Role.assistant, ""⟩], [""], [], none, ["hi"]⟩ :=
  empty_response_committed [] "hi" (by decide)

/-- Helper: full outcome of the handler when the gateway answers `s`
and every placeholder write succeeds. -/
theorem handleChat_okWrite_eq (invoke : String → Except String String)
    (msgs : List ChatTurn) (prompt s : String)
    (hok : invoke prompt = Except.ok s) :
    handleChat invoke okWrite msgs prompt =
      ⟨msgs ++ [⟨Role.user, prompt⟩] ++ [⟨Role.assistant, s⟩],
        (List.range s.length).map
          (fun i => String.mk (s.data.take (i + 1)) ++ cursorMarker) ++ [s],
        [], none, [prompt]⟩ := by
  have hdata : String.mk s.data = s := rfl
  have hlen : s.data.length = s.length := rfl
  simp only [handleChat, hok, streamLoop_okWrite_eq, str_empty_append, okWrite,
    hdata, hlen]

/-- C4: a response of N characters produces exactly N+1 placeholder
writes: N intermediate ones, the i-th being the first i+1 characters
followed by the cursor marker, then one final write equal to the full
response without the marker, which is also the last displayed string. -/
theorem streaming_write_pattern (s : String) (msgs : List ChatTurn) (prompt : String) :
    (handleChat (fun _ => Except.ok s) okWrite msgs prompt).writes =
      (List.range s.length).map
        (fun i => String.mk (s.data.take (i + 1)) ++ cursorMarker) ++ [s] ∧
    (handleChat (fun _ => Except.ok s) okWrite msgs prompt).writes.length =
      s.length + 1 ∧
    (handleChat (fun _ => Except.ok s) okWrite msgs prompt).writes.getLast? =
      some s := by
  have h := handleChat_okWrite_eq (fun _ => Except.ok s) msgs prompt s rfl
  rw [h]
  refine ⟨rfl, ?_, ?_⟩
  · simp
  · simp [List.getLast?_concat]

/-- Helper: with a total stub gateway and succeeding writes, a sequence
of non-empty submissions appends a user/assistant pair per prompt. -/
theorem runAll_stub (stub : String → String) :
    ∀ (ps : List String) (msgs : List ChatTurn), (∀ p ∈ ps, p ≠ "") →
      runAll (fun q => Except.ok (stub q)) okWrite msgs ps =
        msgs ++ ps.flatMap (fun p => [⟨Role.user, p⟩, ⟨Role.assistant, stub p⟩]) := by
  intro ps
  induction ps with
  | nil =>
    intro msgs _
    simp [runAll]
  | cons p ps ih =>
    intro msgs h
    have hp : p ≠ "" := h p (List.mem_cons_self p ps)
    have hrest : ∀ q ∈ ps, q ≠ "" := fun q hq => h q (List.mem_cons_of_mem p hq)
    have hstep : runAll (fun q => Except.ok (stub q)) okWrite msgs (p :: ps) =
        runAll (fun q => Except.ok (stub q)) okWrite
          (handleSubmission (fun q => Except.ok (stub q)) okWrite msgs (some p)).messages
          ps := rfl
    have hmsg : (handleSubmission (fun q => Except.ok (stub q)) okWrite msgs
        (some p)).messages =
        msgs ++ [⟨Role.user, p⟩] ++ [⟨Role.assistant, stub p⟩] := by
      simp only [handleSubmission, if_neg hp,
        handleChat_okWrite_eq (fun q => Except.ok (stub q)) msgs p (stub p) rfl]
    rw [hstep, hmsg, ih _ hrest]
    simp [List.flatMap_cons, List.append_assoc]

/-- Helper: a flat map producing a two-turn block per prompt doubles the
length. -/
theorem flatMap_pair_length (f g : String → ChatTurn) :
    ∀ ps : List String, (ps.flatMap (fun p => [f p, g p])).length = 2 * ps.length := by
  intro ps
  induction ps with
  | nil => rfl
  | cons p ps ih =>
    simp only [List.flatMap_cons, List.length_append, List.length_cons,
      List.length_nil, ih]
    omega

/-- C3: N non-empty submissions against a stub gateway (in particular an
echoing one) leave the conversation state with exactly 2N turns,
alternating user then assistant, with contents in submission order:
the k-th pair is the k-th prompt followed by the stub's answer to it. -/
theorem submissions_yield_alternating_turns (stub : String → String)
    (ps : List String) (h : ∀ p ∈ ps, p ≠ "") :
    runAll (fun q => Except.ok (stub q)) okWrite initialMessages ps =
      ps.flatMap (fun p => [⟨Role.user, p⟩, ⟨Role.assistant, stub p⟩]) ∧
    (runAll (fun q => Except.ok (stub q)) okWrite initialMessages ps).length =
      2 * ps.length := by
  have hmain := runAll_stub stub ps initialMessages h
  have hnil : initialMessages ++
      ps.flatMap (fun p => [(⟨Role.user, p⟩ : ChatTurn), ⟨Role.assistant, stub p⟩]) =
      ps.flatMap (fun p => [⟨Role.user, p⟩, ⟨Role.assistant, stub p⟩]) := rfl
  rw [hmain, hnil]
  exact ⟨rfl, flatMap_pair_length _ _ ps⟩

/-- Witness for C3: the spec scenario — submitting "hello" against a
stub returning "hi there" yields the two turns in order. -/
theorem scenario_hello_witness :
    runAll (fun _ => Except.ok "hi there") okWrite initialMessages ["hello"] =
      [⟨Role.user, "hello"⟩, ⟨Role.assistant, "hi there"⟩] ∧
    (runAll (fun _ => Except.ok "hi there") okWrite initialMessages
        ["hello"]).length = 2 * 1 :=
  submissions_yield_alternating_turns (fun _ => "hi there") ["hello"] (by decide)

/-- Helper: whatever the gateway and the writes do, the handler only
ever appends turns to the existing log. -/
theorem handleChat_messages_extend (invoke : String → Except String String)
    (write : String → Except String Unit) (msgs : List ChatTurn) (prompt : String) :
    ∃ t, (handleChat invoke write msgs prompt).messages = msgs ++ t := by
  cases hi : invoke prompt with
  | error e => exact ⟨[⟨Role.user, prompt⟩], by simp [handleChat, hi]⟩
  | ok s =>
    cases herr : (streamLoop write s.data "").2.2 with
    | some e => exact ⟨[⟨Role.user, prompt⟩], by simp [handleChat, hi, herr]⟩
    | none =>
      cases hw : write (streamLoop write s.data "").2.1 with
      | error e => exact ⟨[⟨Role.user, prompt⟩], by simp [handleChat, hi, herr, hw]⟩
      | ok u =>
        exact ⟨[⟨Role.user, prompt⟩, ⟨Role.assistant, (streamLoop write s.data "").2.1⟩],
          by simp [handleChat, hi, herr, hw, List.append_assoc]⟩

/-- Helper: a submission never deletes or edits existing turns. -/
theorem handleSubmission_messages_extend (invoke : String → Except String String)
    (write : String → Except String Unit) (msgs : List ChatTurn)
    (input : Option String) :
    ∃ t, (handleSubmission invoke write msgs input).messages = msgs ++ t := by
  cases input with
  | none => exact ⟨[], by simp [handleSubmission]⟩
  | some p =>
    by_cases hp : p = ""
    · exact ⟨[], by simp [handleSubmission, hp]⟩
    · obtain ⟨t, ht⟩ := handleChat_messages_extend invoke write msgs p
      exact ⟨t, by simp [handleSubmission, if_neg hp, ht]⟩

/-- Helper: over any clear-free sequence of operations, the starting log
is a prefix of the final log. -/
theorem runOps_extends_log (invoke : String → Except String String)
    (write : String → Except String Unit) :
    ∀ (ops : List Op) (msgs : List ChatTurn), Op.clear ∉ ops →
      msgs <+: runOps invoke write msgs ops := by
  intro ops
  induction ops with
  | nil =>
    intro msgs _
    exact ⟨[], List.append_nil msgs⟩
  | cons op ops ih =>
    intro msgs h
    have hop : op ≠ Op.clear := fun hc => h (hc ▸ List.mem_cons_self op ops)
    have hnotin : Op.clear ∉ ops := fun hc => h (List.mem_cons_of_mem op hc)
    have hstep : runOps invoke write msgs (op :: ops) =
        runOps invoke write (applyOp invoke write msgs op) ops := rfl
    rw [hstep]
    cases op with
    | clear => exact absurd rfl hop
    | submit input =>
      obtain ⟨t, ht⟩ := handleSubmission_messages_extend invoke write msgs input
      have h1 : msgs <+: applyOp invoke write msgs (Op.submit input) := by
        rw [show applyOp invoke write msgs (Op.submit input) =
          (handleSubmission invoke write msgs input).messages from rfl, ht]
        exact ⟨t, rfl⟩
      exact h1.trans (ih (applyOp invoke write msgs (Op.submit input)) hnotin)

/-- C8: the conversation state starts empty, and every operation either
appends turns at the end (a submission) or resets the whole sequence to
empty (clear); hence between clears the existing log is a prefix of
every later log. -/
theorem conversation_append_only_between_clears :
    initialMessages = ([] : List ChatTurn) ∧
    ∀ (invoke : String → Except String String) (write : String → Except String Unit)
      (msgs : List ChatTurn) (ops : List Op),
      Op.clear ∉ ops → msgs <+: runOps invoke write msgs ops :=
  ⟨rfl, fun invoke write msgs ops h => runOps_extends_log invoke write ops msgs h⟩

/-- Witness for C8: after two further submissions (one of them blank),
the earlier one-turn log is still a prefix of the final log. -/
theorem append_only_witness :
    [(⟨Role.user, "a"⟩ : ChatTurn)] <+:
      runOps (fun q => Except.ok q) okWrite [⟨Role.user, "a"⟩]
        [Op.submit (some "x"), Op.submit none] :=
  conversation_append_only_between_clears.2 (fun q => Except.ok q) okWrite
    [⟨Role.user, "a"⟩] [Op.submit (some "x"), Op.submit none] (by decide)

/-- C10: `process_file` returns no path exactly for a missing upload;
for a present upload it creates one new temporary file (the counter
advances, so the file survives the call: `delete=False`), stores the
upload's full byte content under a fresh path that keeps the uploaded
file's extension, and returns that path. -/
theorem process_file_contract (fs : TempFS) (u : Option UploadedFile) :
    ((process_file fs u).2 = none ↔ u = none) ∧
    ∀ f, u = some f →
      ∃ p, (process_file fs u).2 = some p ∧
        (process_file fs u).1.files = fs.files ++ [(p, f.value)] ∧
        (process_file fs u).1.counter = fs.counter + 1 ∧
        ∃ stem, p = stem ++ pathSuffix f.name := by
  cases u with
  | none =>
    refine ⟨by simp [process_file], ?_⟩
    intro f hf
    exact Option.noConfusion hf
  | some f0 =>
    refine ⟨by simp [process_file], ?_⟩
    intro f hf
    injection hf with hf0
    subst hf0
    exact ⟨freshTempName fs (pathSuffix f0.name), rfl, rfl, rfl,
      ⟨"/tmp/tmp" ++ toString fs.counter, rfl⟩⟩

/-- Witness for C10: uploading two bytes as "doc.txt" to an empty store
yields a fresh ".txt" path holding exactly those bytes. -/
theorem process_file_witness :
    ∃ p, (process_file ⟨[], 0⟩ (some ⟨"doc.txt", [104, 105]⟩)).2 = some p ∧
      (process_file ⟨[], 0⟩ (some ⟨"doc.txt", [104, 105]⟩)).1.files =
        ([] : List (String × List UInt8)) ++ [(p, [104, 105])] ∧
      (process_file ⟨[], 0⟩ (some ⟨"doc.txt", [104, 105]⟩)).1.counter = 0 + 1 ∧
      ∃ stem, p = stem ++ pathSuffix "doc.txt" :=
  (process_file_contract ⟨[], 0⟩ (some ⟨"doc.txt", [104, 105]⟩)).2
    ⟨"doc.txt", [104, 105]⟩ rfl

end ChatApp
